import Mathlib

/-!
# Verification of the segmentation_analysis scripts

Shallow embedding of the DICE overlap scorer (`scripts/dice_score.py`,
`scripts/chat_dice.py`, `scripts/dice_score_folder.py`) and of the
displacement extractors (`scripts/batch_displacement_processor.py`,
`scripts/displacement_plotter_realdata.py`, `scripts/tumour_displacement.py`).

Volumes are modelled one-dimensionally: a numpy array is a `List ℚ` of voxel
values and its shape is its length.  This is exactly the rank-1 fragment of
numpy; the scripts never use a property of higher rank that the claims depend
on.  numpy's elementwise `logical_and` broadcasts when one operand has length
one and raises otherwise, which `npAnd` reproduces (returning `none` for the
raised error).  Floating-point arithmetic is idealised as exact rational
arithmetic, and the cosmetic `round(_, 4)` applied to reported scores is
omitted.
-/

namespace Seg

/-- `astype(bool)`: numpy truthiness — any non-zero value becomes `True`
(`dice_score` in `dice_score.py` line 10–11). -/
def toMask (xs : List ℚ) : List Bool :=
  xs.map (fun x => decide (x ≠ 0))

/-- The `> 0.5` thresholding applied at load time in `dice_score.py` (module
level), `chat_dice.py` and `dice_score_folder.py`. -/
def threshold (xs : List ℚ) : List Bool :=
  xs.map (fun x => decide ((1 : ℚ)/2 < x))

/-- `mask.sum()` on a boolean numpy array: the number of `True` voxels. -/
def countTrue (m : List Bool) : Nat :=
  (m.filter id).length

/-- `np.logical_and` on rank-1 boolean arrays: equal lengths are combined
elementwise, a length-one operand broadcasts, anything else raises
(`none`). -/
def npAnd (a b : List Bool) : Option (List Bool) :=
  if a.length = b.length then some (List.zipWith and a b)
  else if a.length = 1 then some (b.map (fun y => and a.headI y))
  else if b.length = 1 then some (a.map (fun x => and x b.headI))
  else none

/-- Core of `dice_score` after the `astype(bool)` casts: intersection count,
total count, the `total == 0` convention, and the `2·i/total` ratio
(`dice_score.py` lines 12–18).  `none` when numpy raises on the shapes. -/
def dice_of_masks (s1 s2 : List Bool) : Option ℚ :=
  (npAnd s1 s2).map (fun inter =>
    let total := countTrue s1 + countTrue s2
    if total = 0 then 1 else 2 * (countTrue inter : ℚ) / (total : ℚ))

/-- `dice_score(seg1, seg2)` from `dice_score.py` / `chat_dice.py` /
`dice_score_folder.py` (all three copies are textually identical up to
argument names). -/
def dice_score (seg1 seg2 : List ℚ) : Option ℚ :=
  dice_of_masks (toMask seg1) (toMask seg2)

/-- Embedding of a boolean mask as the numpy array of its 0/1 voxel values. -/
def boolToQ (b : Bool) : ℚ :=
  if b then 1 else 0

/-- A loaded volume: rank-1 model, shape = `data.length`. -/
structure Vol where
  data : List ℚ
deriving DecidableEq

/-- One row that `enhanced_dice_evaluation` (`chat_dice.py`) appends for a
tumour whose two files were both found: either the shape-mismatch diagnostic
(dice column `"N/A"`, note `"Shape mismatch …"`) or a computed score. -/
inductive ChatNote where
  | shapeMismatch (n1 n2 : Nat)
  | ok (score : ℚ)
deriving DecidableEq

/-- The per-tumour comparison step of `enhanced_dice_evaluation`
(`chat_dice.py` lines 41–56): threshold both loaded volumes at `0.5`, reject
on shape mismatch before calling `dice_score`, otherwise score.  The `getD 0`
default is dead code: equal shapes always produce `some`. -/
def chatCompare (v1 v2 : Vol) : ChatNote :=
  let seg1 := threshold v1.data
  let seg2 := threshold v2.data
  if seg1.length ≠ seg2.length then ChatNote.shapeMismatch seg1.length seg2.length
  else ChatNote.ok ((dice_of_masks seg1 seg2).getD 0)

/-- One result row of the module-level loop of `dice_score_folder.py`: a
computed score, or the `"ERROR"` row written by the `except` clause. -/
inductive FolderEntry where
  | score (q : ℚ)
  | err
deriving DecidableEq

/-- The per-file comparison of the module-level loop in
`dice_score_folder.py` (lines 36–49): both masks are thresholded at load and
passed straight to `dice_score` inside a `try`; there is no shape check, so
numpy either broadcasts (a score is recorded) or raises (the `except` records
an `"ERROR"` row). -/
def folderCompare (gt pred : Vol) : FolderEntry :=
  match dice_of_masks (threshold gt.data) (threshold pred.data) with
  | some q => FolderEntry.score q
  | none => FolderEntry.err

/-! ## String helpers -/

/-- Python `str.strip()`: remove leading and trailing whitespace. -/
def pyStrip (cs : List Char) : List Char :=
  ((cs.dropWhile Char.isWhitespace).reverse.dropWhile Char.isWhitespace).reverse

/-- Python `str.lower()` (ASCII case, which is all the data uses). -/
def pyLower (cs : List Char) : List Char := cs.map Char.toLower

/-- Python string comparison: lexicographic by code point, a proper prefix
ordered first. -/
def charListLe : List Char → List Char → Bool
  | [], _ => true
  | _ :: _, [] => false
  | a :: as, b :: bs =>
    if a.toNat < b.toNat then true
    else if b.toNat < a.toNat then false
    else charListLe as bs

/-- `pat` occurs as a contiguous run inside `l`. -/
def containsSub (l pat : List Char) : Bool :=
  (List.range (l.length + 1)).any (fun i => pat.isPrefixOf (l.drop i))

/-- Substring test on strings: model of Python's `in` on `str`. -/
def strContains (s pat : String) : Bool :=
  containsSub s.data pat.data

/-- An ASCII apostrophe, as produced by a Python f-string quoting a key. -/
def apos : String := String.singleton (Char.ofNat 39)

/-- The message of `batch_displacement_processor.py` line 35: `Reference
phase` , the quoted key, `not found in data.` -/
def refMsgData (ref : String) : String :=
  "Reference phase " ++ apos ++ ref ++ apos ++ " not found in data."

/-- The message of `displacement_plotter_realdata.py` line 46: `Reference
phase` , the quoted key, `not found in` and the file path. -/
def refMsgFile (ref fp : String) : String :=
  "Reference phase " ++ apos ++ ref ++ apos ++ " not found in " ++ fp

/-- The message of an error result, `""` on success. -/
def errMsg {α : Type} : Except String α → String
  | .error m => m
  | .ok _ => ""

/-- Whether an `Except` result is a success. -/
def isOkE {α : Type} : Except String α → Bool
  | .error _ => false
  | .ok _ => true

/-! ## batch_displacement_processor.py -/

/-- One row of an AmigoPy CSV consumed by `batch_displacement_processor.py`:
columns `phase`, `axis`, `com`. -/
structure ComRow where
  phase : String
  axis : String
  com : ℚ
deriving DecidableEq

/-- The order used by `df.sort_values(by='phase')` there: lexical comparison
of the phase strings. -/
def lexLe (a b : ComRow) : Prop :=
  charListLe a.phase.data b.phase.data = true

instance : DecidableRel lexLe := fun _ _ => Bool.decEq _ _

/-- `compute_displacement(df, reference_phase)` from
`batch_displacement_processor.py` lines 20–40: keep the `axis == 'z'` rows,
sort by the phase string, fail if the reference phase is absent, otherwise
subtract the first reference row's centre of mass from every row. -/
def compute_displacement (df : List ComRow) (reference_phase : String) :
    Except String (List (String × ℚ)) :=
  let dfz := df.filter (fun r => decide (r.axis = "z"))
  let sorted := List.insertionSort lexLe dfz
  match sorted.filter (fun r => decide (r.phase = reference_phase)) with
  | [] => .error (refMsgData reference_phase)
  | r0 :: _ => .ok (sorted.map (fun r => (r.phase, r.com - r0.com)))

/-! ## displacement_plotter_realdata.py -/

/-- One row of a `structure_stats` CSV consumed by
`displacement_plotter_realdata.py`: columns `series_id`, `name`, `z`. -/
structure SRow where
  series_id : String
  name : String
  z : ℚ
deriving DecidableEq

/-- The canonical breathing-phase sequence: `PHASE_ORDER` in
`displacement_plotter_realdata.py`, `phase_order` in
`tumour_displacement.py`. -/
def PHASE_ORDER : List String :=
  ["0in", "25in", "50in", "75in", "100in", "75ex", "50ex", "25ex"]

/-- `series_id.str.strip().str.lower()`. -/
def normalizeLabel (s : String) : String := ⟨pyLower (pyStrip s.data)⟩

/-- Position of a label in the canonical sequence (`PHASE_ORDER.length` for
labels outside it; every row that reaches the sort carries a label inside
it, so the default never decides an order). -/
def phaseIdxS (s : String) : Nat :=
  PHASE_ORDER.findIdx (fun p => p == s)

/-- Rows kept by `process_structure_csv` before sorting
(`displacement_plotter_realdata.py` lines 35–40): the requested tumour's
rows, labels normalized, restricted to recognized phases. -/
def selectPhases (df : List SRow) (tumour_name : String) : List SRow :=
  ((df.filter (fun r => decide (r.name = tumour_name))).map
      (fun r => { r with series_id := normalizeLabel r.series_id })).filter
    (fun r => PHASE_ORDER.contains r.series_id)

/-- The categorical order on normalized rows: position in `PHASE_ORDER`. -/
def phaseLe (a b : SRow) : Prop :=
  phaseIdxS a.series_id ≤ phaseIdxS b.series_id

instance : DecidableRel phaseLe := fun _ _ => Nat.decLe _ _

instance : IsTotal SRow phaseLe := ⟨fun _ _ => Nat.le_total _ _⟩

instance : IsTrans SRow phaseLe := ⟨fun _ _ _ h1 h2 => Nat.le_trans h1 h2⟩

/-- `process_structure_csv(file_path, …)` from
`displacement_plotter_realdata.py` lines 21–51, taking the already-read CSV
rows: filter to the tumour, normalize labels, drop unrecognized phases, sort
by canonical position, fail if the reference phase is absent, else emit a
`(series_id, z - ref_z)` pair per row in sorted order. -/
def process_structure_csv (file_path : String) (df : List SRow)
    (tumour_name : String) (reference_phase : String) :
    Except String (List (String × ℚ)) :=
  let sorted := List.insertionSort phaseLe (selectPhases df tumour_name)
  match sorted.filter (fun r => decide (r.series_id = reference_phase)) with
  | [] => .error (refMsgFile reference_phase file_path)
  | r0 :: _ => .ok (sorted.map (fun r => (r.series_id, r.z - r0.z)))

/-! ## tumour_displacement.py -/

/-- One row of the `structure_stats.csv` consumed by
`tumour_displacement.py`: columns `series_id`, `name`, `x`, `y`, `z`. -/
structure TRow where
  series_id : String
  name : String
  x : ℚ
  y : ℚ
  z : ℚ
deriving DecidableEq

/-- Numeric value of a digit string. -/
def digitsVal (cs : List Char) : Nat :=
  cs.foldl (fun n c => 10 * n + (c.toNat - 48)) 0

/-- Model of Python's `float(s)` restricted to finite decimal literals:
optional sign, digits, optionally one decimal point, at least one digit.
Exponents, `inf`, `nan` and surrounding whitespace are not modelled; no
claim's input uses them.  `none` models the raised `ValueError`. -/
def parseFloatQ (s : String) : Option ℚ :=
  let cs := s.data
  let body := match cs with
    | c :: t => if c = '-' ∨ c = '+' then t else cs
    | [] => []
  let neg : Bool := match cs with
    | c :: _ => c = '-'
    | [] => false
  let ip := body.takeWhile (fun c => decide (c ≠ '.'))
  let fp := (body.dropWhile (fun c => decide (c ≠ '.'))).drop 1
  if ip.all Char.isDigit && fp.all Char.isDigit && (!ip.isEmpty || !fp.isEmpty)
  then
    some ((if neg then -1 else 1) *
      ((digitsVal ip : ℚ) + (digitsVal fp : ℚ) / (10 : ℚ) ^ fp.length))
  else none

/-- `is_numeric` from `tumour_displacement.py` lines 14–19: whether
`float(s)` succeeds. -/
def is_numeric (s : String) : Bool := (parseFloatQ s).isSome

/-- The filter removing rows whose `series_id` contains `average`
case-insensitively (`tumour_displacement.py` lines 10–12). -/
def filterAverage (df : List TRow) : List TRow :=
  df.filter (fun r => !(containsSub (pyLower r.series_id.data) "average".data))

/-- `existing_phases`: the canonical phases that occur verbatim among the
series identifiers (`tumour_displacement.py` line 27). -/
def existingPhases (df : List TRow) : List String :=
  PHASE_ORDER.filter (fun p => df.any (fun r => decide (r.series_id = p)))

/-- The categorical code of a row: its position among `existing`, or `none`
(pandas `NaN`) when its label is not a category. -/
def catCode (existing : List String) (r : TRow) : Option Nat :=
  existing.findIdx? (fun p => p == r.series_id)

/-- Comparison of categorical codes: `NaN` sorts after every code (pandas
`sort_values` default `na_position='last'`). -/
def codeLe : Option Nat → Option Nat → Bool
  | some i, some j => i ≤ j
  | some _, none => true
  | none, some _ => false
  | none, none => true

/-- The categorical row order of the phase branch. -/
def tCatLe (existing : List String) (a b : TRow) : Prop :=
  codeLe (catCode existing a) (catCode existing b) = true

instance (existing : List String) : DecidableRel (tCatLe existing) :=
  fun _ _ => Bool.decEq _ _

/-- The row order of the numeric branch: ascending coerced value. -/
def tNumLe (p q : TRow × ℚ) : Prop := p.2 ≤ q.2

instance : DecidableRel tNumLe :=
  fun p q => inferInstanceAs (Decidable (p.2 ≤ q.2))

/-- The row order of the dead string branch. -/
def tStrLe (a b : TRow) : Prop := a.series_id ≤ b.series_id

instance : DecidableRel tStrLe :=
  fun a b => inferInstanceAs (Decidable (a.series_id ≤ b.series_id))

/-- `df['series_id'].astype(float)`: coerce every key, raising (`.error`,
Python `ValueError`) at the first non-numeric key. -/
def astypeFloat : List TRow → Except String (List (TRow × ℚ))
  | [] => .ok []
  | r :: t =>
    match parseFloatQ r.series_id, astypeFloat t with
    | some v, .ok l => .ok ((r, v) :: l)
    | some _, .error e => .error e
    | none, _ =>
        .error ("could not convert string to float: " ++ apos
          ++ r.series_id ++ apos)

/-- The module-level ordering branch of `tumour_displacement.py` lines
21–39: if some series identifier is non-numeric, sort categorically by the
canonical phases present (unrecognized labels become `NaN`, sort last, and
are kept); otherwise coerce every identifier to float and sort ascending.
The inner re-test of all-numeric before `astype` is kept from the source;
its `else` arm (a plain sort of the string keys) is unreachable. -/
def orderRows (df : List TRow) : Except String (List TRow) :=
  if ¬ (df.all (fun r => is_numeric r.series_id)) then
    .ok (List.insertionSort (tCatLe (existingPhases df)) df)
  else
    if df.all (fun r => is_numeric r.series_id) then
      match astypeFloat df with
      | .error e => .error e
      | .ok keyed => .ok ((List.insertionSort tNumLe keyed).map Prod.fst)
    else
      .ok (List.insertionSort tStrLe df)

/-- The whole module-level preparation of `tumour_displacement.py`: the
`average` filter followed by the ordering branch. -/
def tumourPipeline (df : List TRow) : Except String (List TRow) :=
  orderRows (filterAverage df)

/-- The squared displacement values plotted for one tumour
(`tumour_displacement.py` line 53): per matching row, `x² + y² + z²`; the
script then applies `** 0.5` in floating point. -/
def tumourDisplacementSq (df : List TRow) (tumour : String) : List ℚ :=
  (df.filter (fun r => decide (r.name = tumour))).map
    (fun r => r.x ^ 2 + r.y ^ 2 + r.z ^ 2)

/-! ## The lexical order is total and transitive -/

theorem charListLe_total : ∀ (a b : List Char),
    charListLe a b = true ∨ charListLe b a = true := by
  intro a
  induction a with
  | nil => intro b; left; rfl
  | cons x xs ih =>
    intro b
    cases b with
    | nil => right; rfl
    | cons y ys =>
      by_cases h1 : x.toNat < y.toNat
      · left; simp [charListLe, h1]
      · by_cases h2 : y.toNat < x.toNat
        · right; simp [charListLe, h2]
        · rcases ih ys with h | h
          · left; simp [charListLe, h1, h2, h]
          · right; simp [charListLe, h1, h2, h]

theorem charListLe_trans : ∀ (a b c : List Char),
    charListLe a b = true → charListLe b c = true → charListLe a c = true := by
  intro a
  induction a with
  | nil => intro b c _ _; rfl
  | cons x xs ih =>
    intro b c hab hbc
    cases b with
    | nil => simp [charListLe] at hab
    | cons y ys =>
      cases c with
      | nil => simp [charListLe] at hbc
      | cons z zs =>
        by_cases h1 : x.toNat < z.toNat
        · simp [charListLe, h1]
        · by_cases hxy : x.toNat < y.toNat <;> by_cases hyz : y.toNat < z.toNat
          · exact absurd (Nat.lt_trans hxy hyz) h1
          · by_cases hzy : z.toNat < y.toNat
            · simp [charListLe, hyz, hzy] at hbc
            · exact absurd (by omega : x.toNat < z.toNat) h1
          · by_cases hyx : y.toNat < x.toNat
            · simp [charListLe, hxy, hyx] at hab
            · exact absurd (by omega : x.toNat < z.toNat) h1
          · by_cases hyx : y.toNat < x.toNat
            · simp [charListLe, hxy, hyx] at hab
            · by_cases hzy : z.toNat < y.toNat
              · simp [charListLe, hyz, hzy] at hbc
              · have hzx : ¬ z.toNat < x.toNat := by omega
                simp only [charListLe, if_neg hxy, if_neg hyx] at hab
                simp only [charListLe, if_neg hyz, if_neg hzy] at hbc
                simp only [charListLe, if_neg h1, if_neg hzx]
                exact ih ys zs hab hbc

instance : IsTotal ComRow lexLe :=
  ⟨fun a b => charListLe_total a.phase.data b.phase.data⟩

instance : IsTrans ComRow lexLe :=
  ⟨fun _ _ _ h1 h2 => charListLe_trans _ _ _ h1 h2⟩

/-! ## Basic lemmas about the dice model -/

theorem toMask_map_boolToQ (l : List Bool) : toMask (l.map boolToQ) = l := by
  induction l with
  | nil => rfl
  | cons b t ih =>
    cases b <;> simp [toMask, boolToQ] at ih ⊢ <;> simpa [toMask] using ih

theorem countTrue_nil : countTrue [] = 0 := rfl

theorem countTrue_cons (x : Bool) (l : List Bool) :
    countTrue (x :: l) = (if x then 1 else 0) + countTrue l := by
  cases x <;> simp [countTrue, List.filter, Nat.add_comm]

theorem countTrue_zipWith_and_le_left (A B : List Bool) :
    countTrue (List.zipWith and A B) ≤ countTrue A := by
  induction A generalizing B with
  | nil => simp [countTrue]
  | cons a t ih =>
    cases B with
    | nil => simp [countTrue]
    | cons b s =>
      rw [List.zipWith_cons_cons, countTrue_cons, countTrue_cons]
      have h1 : (if (and a b) then 1 else 0) ≤ (if a then 1 else 0) := by
        cases a <;> cases b <;> simp
      exact Nat.add_le_add h1 (ih s)

theorem countTrue_zipWith_and_le_right (A B : List Bool) :
    countTrue (List.zipWith and A B) ≤ countTrue B := by
  induction A generalizing B with
  | nil => simp [countTrue]
  | cons a t ih =>
    cases B with
    | nil => simp [countTrue]
    | cons b s =>
      rw [List.zipWith_cons_cons, countTrue_cons, countTrue_cons]
      have h1 : (if (and a b) then 1 else 0) ≤ (if b then 1 else 0) := by
        cases a <;> cases b <;> simp
      exact Nat.add_le_add h1 (ih s)

theorem length_toMask (xs : List ℚ) : (toMask xs).length = xs.length := by
  simp [toMask]

theorem length_threshold (xs : List ℚ) : (threshold xs).length = xs.length := by
  simp [threshold]

theorem npAnd_of_length_eq {a b : List Bool} (h : a.length = b.length) :
    npAnd a b = some (List.zipWith and a b) := by
  simp [npAnd, h]

/-! ## C1: the dice formula and its range -/

/-- **C1.** For boolean arrays `A`, `B` of identical shape with at least one
true voxel in total, `dice_score` returns exactly
`2·|A∩B| / (|A|+|B|)`, and every value it returns lies in `[0, 1]`. -/
theorem C1_dice_formula_and_range (A B : List Bool) (h : A.length = B.length)
    (hne : countTrue A + countTrue B ≠ 0) :
    dice_score (A.map boolToQ) (B.map boolToQ)
      = some (2 * (countTrue (List.zipWith and A B) : ℚ)
          / ((countTrue A + countTrue B : Nat) : ℚ))
    ∧ ∀ q : ℚ, dice_score (A.map boolToQ) (B.map boolToQ) = some q →
        0 ≤ q ∧ q ≤ 1 := by
  have hmask : toMask (A.map boolToQ) = A := toMask_map_boolToQ A
  have hmask' : toMask (B.map boolToQ) = B := toMask_map_boolToQ B
  have hval : dice_score (A.map boolToQ) (B.map boolToQ)
      = some (2 * (countTrue (List.zipWith and A B) : ℚ)
          / ((countTrue A + countTrue B : Nat) : ℚ)) := by
    rw [dice_score, hmask, hmask', dice_of_masks, npAnd_of_length_eq h]
    simp [hne]
  refine ⟨hval, ?_⟩
  intro q hq
  rw [hval] at hq
  have hq' : q = 2 * (countTrue (List.zipWith and A B) : ℚ)
      / ((countTrue A + countTrue B : Nat) : ℚ) := by
    exact (Option.some.injEq _ _ ▸ hq).symm
  have htpos : (0 : ℚ) < ((countTrue A + countTrue B : Nat) : ℚ) := by
    have : 0 < countTrue A + countTrue B := Nat.pos_of_ne_zero hne
    exact_mod_cast this
  constructor
  · rw [hq']
    positivity
  · rw [hq']
    rw [div_le_one htpos]
    have hi1 : countTrue (List.zipWith and A B) ≤ countTrue A :=
      countTrue_zipWith_and_le_left A B
    have hi2 : countTrue (List.zipWith and A B) ≤ countTrue B :=
      countTrue_zipWith_and_le_right A B
    have h2 : 2 * countTrue (List.zipWith and A B) ≤ countTrue A + countTrue B := by
      omega
    calc 2 * (countTrue (List.zipWith and A B) : ℚ)
        = ((2 * countTrue (List.zipWith and A B) : Nat) : ℚ) := by push_cast; ring
      _ ≤ ((countTrue A + countTrue B : Nat) : ℚ) := by exact_mod_cast h2

/-- Witness for C1 at a concrete input: `A = [true, false]`,
`B = [true, true]` gives `2·1/(1+2) = 2/3`. -/
theorem C1_dice_formula_and_range_witness :
    ([true, false] : List Bool).length = ([true, true] : List Bool).length
    ∧ countTrue [true, false] + countTrue [true, true] ≠ 0
    ∧ (dice_score ([true, false].map boolToQ) ([true, true].map boolToQ)
        = some (2 * (countTrue (List.zipWith and [true, false] [true, true]) : ℚ)
            / ((countTrue [true, false] + countTrue [true, true] : Nat) : ℚ))
      ∧ ∀ q : ℚ, dice_score ([true, false].map boolToQ) ([true, true].map boolToQ)
          = some q → 0 ≤ q ∧ q ≤ 1) :=
  ⟨by decide, by decide,
    C1_dice_formula_and_range [true, false] [true, true] (by decide) (by decide)⟩

/-! ## C4: both masks empty -/

/-- **C4.** For equal-shaped masks with no true voxel, `dice_score` returns
exactly 1. -/
theorem C4_empty_masks_score_one (A B : List Bool) (h : A.length = B.length)
    (hA : countTrue A = 0) (hB : countTrue B = 0) :
    dice_score (A.map boolToQ) (B.map boolToQ) = some 1 := by
  rw [dice_score, toMask_map_boolToQ, toMask_map_boolToQ, dice_of_masks,
    npAnd_of_length_eq h]
  simp [hA, hB]

/-- Witness for C4: two all-false masks of length 3 score 1. -/
theorem C4_empty_masks_score_one_witness :
    ([false, false, false] : List Bool).length
        = ([false, false, false] : List Bool).length
    ∧ countTrue [false, false, false] = 0
    ∧ dice_score (([false, false, false] : List Bool).map boolToQ)
        (([false, false, false] : List Bool).map boolToQ) = some 1 :=
  ⟨rfl, rfl,
    C4_empty_masks_score_one [false, false, false] [false, false, false]
      rfl rfl rfl⟩

/-! ## C10: dice_score binarizes by truthiness, not by the 0.5 threshold -/

/-- **C10.** `dice_score`'s own binarization is the truthiness cast
`astype(bool)`: every value in `(0, 1/2]` becomes foreground under it but
background under the documented `> 0.5` threshold, and on a concrete volume
containing `3/10` the direct score (1) differs from the thresholded-first
score (2/3). -/
theorem C10_truthiness_vs_threshold (x : ℚ) (h0 : 0 < x) (h1 : x ≤ 1/2) :
    (toMask [x] = [true] ∧ threshold [x] = [false])
    ∧ dice_score [3/10, 1] [1, 1] = some 1
    ∧ dice_of_masks (threshold [3/10, 1]) (threshold [1, 1]) = some (2/3) := by
  have hraw1 : toMask [(3/10 : ℚ), 1] = [true, true] := by
    norm_num [toMask]
  have hraw2 : toMask [(1 : ℚ), 1] = [true, true] := by
    norm_num [toMask]
  have hthr1 : threshold [(3/10 : ℚ), 1] = [false, true] := by
    norm_num [threshold]
  have hthr2 : threshold [(1 : ℚ), 1] = [true, true] := by
    norm_num [threshold]
  refine ⟨⟨?_, ?_⟩, ?_, ?_⟩
  · have hx : x ≠ 0 := ne_of_gt h0
    simp [toMask, hx]
  · simp only [threshold, List.map, List.cons.injEq, and_true,
      decide_eq_false_iff_not, not_lt]
    linarith
  · rw [dice_score, hraw1, hraw2]
    norm_num [dice_of_masks, npAnd, countTrue, List.filter]
  · rw [hthr1, hthr2]
    norm_num [dice_of_masks, npAnd, countTrue, List.filter]

/-- Witness for C10 at `x = 3/10`. -/
theorem C10_truthiness_vs_threshold_witness :
    (0 : ℚ) < 3/10 ∧ (3/10 : ℚ) ≤ 1/2
    ∧ ((toMask [(3/10 : ℚ)] = [true] ∧ threshold [(3/10 : ℚ)] = [false])
      ∧ dice_score [3/10, 1] [1, 1] = some 1
      ∧ dice_of_masks (threshold [3/10, 1]) (threshold [1, 1]) = some (2/3)) :=
  ⟨by norm_num, by norm_num,
    C10_truthiness_vs_threshold (3/10) (by norm_num) (by norm_num)⟩

/-! ## C2: shape-mismatch handling in the two batch drivers -/

/-- **C2 counterexample.** In the module-level loop of
`dice_score_folder.py`, a ground-truth volume of shape `(1,)` against a
prediction of shape `(2,)` — a shape mismatch — is silently scored (numpy
broadcasts the length-one operand): the loop records the score 1, not a
shape-mismatch diagnostic. -/
theorem C2_folder_broadcast_scores_mismatch :
    folderCompare ⟨[(1 : ℚ)]⟩ ⟨[(1 : ℚ), 0]⟩ = FolderEntry.score 1
    ∧ (Vol.mk [(1 : ℚ)]).data.length ≠ (Vol.mk [(1 : ℚ), 0]).data.length := by
  constructor
  · have ht1 : threshold [(1 : ℚ)] = [true] := by norm_num [threshold]
    have ht2 : threshold [(1 : ℚ), 0] = [true, false] := by norm_num [threshold]
    simp only [folderCompare, ht1, ht2]
    norm_num [dice_of_masks, npAnd, countTrue, List.filter, List.headI]
  · decide

/-- **C2 amended.** `enhanced_dice_evaluation` (`chat_dice.py`) rejects every
shape-mismatched pair before scoring, recording the shape-mismatch
diagnostic; the `dice_score_folder.py` loop performs no shape check — a
mismatched pair whose first operand has length one is broadcast and silently
scored, and a non-broadcastable mismatched pair surfaces only as a generic
error row. -/
theorem C2_shape_mismatch_handling (v1 v2 : Vol)
    (h : v1.data.length ≠ v2.data.length) :
    chatCompare v1 v2 = ChatNote.shapeMismatch v1.data.length v2.data.length
    ∧ (v1.data.length = 1 → ∃ q, folderCompare v1 v2 = FolderEntry.score q)
    ∧ (v1.data.length ≠ 1 → v2.data.length ≠ 1 →
        folderCompare v1 v2 = FolderEntry.err) := by
  refine ⟨?_, ?_, ?_⟩
  · rw [chatCompare]
    simp only [length_threshold]
    simp [h]
  · intro h1
    rw [folderCompare, dice_of_masks, npAnd]
    simp only [length_threshold]
    rw [if_neg h, if_pos h1]
    exact ⟨_, rfl⟩
  · intro h1 h2
    rw [folderCompare, dice_of_masks, npAnd]
    simp only [length_threshold]
    rw [if_neg h, if_neg h1, if_neg h2]
    rfl

/-- Witness for C2 amended: volumes of lengths 3 and 2. -/
theorem C2_shape_mismatch_handling_witness :
    (Vol.mk [(1 : ℚ), 1, 1]).data.length ≠ (Vol.mk [(1 : ℚ), 0]).data.length
    ∧ (chatCompare ⟨[(1 : ℚ), 1, 1]⟩ ⟨[(1 : ℚ), 0]⟩
        = ChatNote.shapeMismatch 3 2
      ∧ ((Vol.mk [(1 : ℚ), 1, 1]).data.length = 1 →
          ∃ q, folderCompare ⟨[(1 : ℚ), 1, 1]⟩ ⟨[(1 : ℚ), 0]⟩
            = FolderEntry.score q)
      ∧ ((Vol.mk [(1 : ℚ), 1, 1]).data.length ≠ 1 →
          (Vol.mk [(1 : ℚ), 0]).data.length ≠ 1 →
          folderCompare ⟨[(1 : ℚ), 1, 1]⟩ ⟨[(1 : ℚ), 0]⟩ = FolderEntry.err)) :=
  ⟨by decide, C2_shape_mismatch_handling ⟨[(1 : ℚ), 1, 1]⟩ ⟨[(1 : ℚ), 0]⟩ (by decide)⟩

/-! ## C7: 1-D displacement is z minus the reference z -/

/-- **C7.** In Z-only mode every successful output entry is a record's
centre of mass minus the reference record's; the reference record is an
input `z`-axis row labelled with the reference phase and contributes the
entry `(ref, 0)`; and the spec's end-to-end example — rows `("0in", z=10)`
and `("25in", z=12.5)` with reference `"0in"` — yields
`[("0in", 0), ("25in", 2.5)]`. -/
theorem C7_zdisp_relative (df : List ComRow) (ref : String)
    (out : List (String × ℚ)) (h : compute_displacement df ref = .ok out) :
    (∃ r0, r0 ∈ df ∧ r0.axis = "z" ∧ r0.phase = ref ∧ (ref, (0 : ℚ)) ∈ out ∧
      ∀ p ∈ out, ∃ r, r ∈ df ∧ r.axis = "z" ∧ p.1 = r.phase
        ∧ p.2 = r.com - r0.com)
    ∧ process_structure_csv "stats.csv"
        [⟨"0in", "t1", 10⟩, ⟨"25in", "t1", 25/2⟩] "t1" "0in"
      = .ok [("0in", 0), ("25in", 5/2)] := by
  constructor
  · simp only [compute_displacement] at h
    cases hfil : List.filter (fun r => decide (r.phase = ref))
        (List.insertionSort lexLe
          (List.filter (fun r => decide (r.axis = "z")) df)) with
    | nil => rw [hfil] at h; exact absurd h (by simp)
    | cons r0 rest =>
      rw [hfil] at h
      have hout : out = (List.insertionSort lexLe
          (List.filter (fun r => decide (r.axis = "z")) df)).map
            (fun r => (r.phase, r.com - r0.com)) := by
        cases h; rfl
      have hr0f : r0 ∈ List.filter (fun r => decide (r.phase = ref))
          (List.insertionSort lexLe
            (List.filter (fun r => decide (r.axis = "z")) df)) := by
        rw [hfil]; exact List.mem_cons_self r0 rest
      have hr0s : r0 ∈ List.insertionSort lexLe
          (List.filter (fun r => decide (r.axis = "z")) df) :=
        List.mem_of_mem_filter hr0f
      have hr0phase : r0.phase = ref := by
        have := List.of_mem_filter hr0f
        simpa using this
      have hr0z : r0 ∈ List.filter (fun r => decide (r.axis = "z")) df := by
        simpa using hr0s
      have hr0df : r0 ∈ df ∧ r0.axis = "z" := by
        have := List.mem_filter.mp hr0z
        simpa using this
      refine ⟨r0, hr0df.1, hr0df.2, hr0phase, ?_, ?_⟩
      · rw [hout]
        refine List.mem_map.2 ⟨r0, hr0s, ?_⟩
        rw [hr0phase, sub_self]
      · intro p hp
        rw [hout] at hp
        obtain ⟨r, hrs, rfl⟩ := List.mem_map.1 hp
        have hrz : r ∈ List.filter (fun r => decide (r.axis = "z")) df := by
          simpa using hrs
        have hrdf : r ∈ df ∧ r.axis = "z" := by
          have := List.mem_filter.mp hrz
          simpa using this
        exact ⟨r, hrdf.1, hrdf.2, rfl, rfl⟩
  · have h1 : process_structure_csv "stats.csv"
        [⟨"0in", "t1", 10⟩, ⟨"25in", "t1", 25/2⟩] "t1" "0in"
        = .ok [("0in", (10 : ℚ) - 10), ("25in", (25/2 : ℚ) - 10)] := rfl
    rw [h1]
    norm_num

/-- Witness for C7 at a concrete two-row table. -/
theorem C7_zdisp_relative_witness :
    compute_displacement [⟨"0in", "z", 10⟩, ⟨"25in", "z", 25/2⟩] "0in"
      = .ok [("0in", (10 : ℚ) - 10), ("25in", (25/2 : ℚ) - 10)]
    ∧ ((∃ r0, r0 ∈ [(⟨"0in", "z", 10⟩ : ComRow), ⟨"25in", "z", 25/2⟩]
          ∧ r0.axis = "z" ∧ r0.phase = "0in"
          ∧ ("0in", (0 : ℚ)) ∈ [("0in", (10 : ℚ) - 10), ("25in", (25/2 : ℚ) - 10)]
          ∧ ∀ p ∈ [("0in", (10 : ℚ) - 10), ("25in", (25/2 : ℚ) - 10)],
              ∃ r, r ∈ [(⟨"0in", "z", 10⟩ : ComRow), ⟨"25in", "z", 25/2⟩]
                ∧ r.axis = "z" ∧ p.1 = r.phase ∧ p.2 = r.com - r0.com)
      ∧ process_structure_csv "stats.csv"
          [⟨"0in", "t1", 10⟩, ⟨"25in", "t1", 25/2⟩] "t1" "0in"
        = .ok [("0in", 0), ("25in", 5/2)]) :=
  ⟨rfl, C7_zdisp_relative [⟨"0in", "z", 10⟩, ⟨"25in", "z", 25/2⟩] "0in"
    [("0in", (10 : ℚ) - 10), ("25in", (25/2 : ℚ) - 10)] rfl⟩

/-! ## C6: the reference-not-found error and what it names -/

theorem containsSub_append (a b c : List Char) :
    containsSub (a ++ b ++ c) b = true := by
  unfold containsSub
  apply List.any_eq_true.mpr
  refine ⟨a.length, List.mem_range.mpr ?_, ?_⟩
  · simp only [List.length_append]
    omega
  · rw [List.append_assoc, List.drop_left]
    exact List.isPrefixOf_iff_prefix.mpr (List.prefix_append b c)

theorem strContains_refMsgData (ref : String) :
    strContains (refMsgData ref) ref = true := by
  have hdata : (refMsgData ref).data
      = ("Reference phase " ++ apos).data ++ ref.data
        ++ (apos ++ " not found in data.").data := by
    simp [refMsgData, String.data_append, List.append_assoc]
  rw [strContains, hdata]
  exact containsSub_append _ _ _

theorem strContains_refMsgFile (ref fp : String) :
    strContains (refMsgFile ref fp) ref = true := by
  have hdata : (refMsgFile ref fp).data
      = ("Reference phase " ++ apos).data ++ ref.data
        ++ (apos ++ " not found in " ++ fp).data := by
    simp [refMsgFile, String.data_append, List.append_assoc]
  rw [strContains, hdata]
  exact containsSub_append _ _ _

/-- **C6 counterexample.** A reference phase absent from a table that does
hold rows of the requested structure `middle_tumour`: the raised message
names the reference key and the file path but not the structure. -/
theorem C6_error_omits_structure :
    process_structure_csv "structure_stats_2.csv"
        [⟨"25in", "middle_tumour", 3⟩] "middle_tumour" "0in"
      = .error (refMsgFile "0in" "structure_stats_2.csv")
    ∧ strContains (refMsgFile "0in" "structure_stats_2.csv") "middle_tumour"
        = false
    ∧ strContains (refMsgFile "0in" "structure_stats_2.csv") "0in" = true :=
  ⟨rfl, by decide, by decide⟩

/-- **C6 amended.** When the reference key is absent from the filtered
records, both displacement routines fail with a reference-not-found error
whose message names the requested reference key (and, in the realdata
plotter, the source file path) — but not the requested structure. -/
theorem C6_ref_error_names_key :
    (∀ (df : List ComRow) (ref : String),
      (∀ r ∈ df, r.axis = "z" → r.phase ≠ ref) →
        compute_displacement df ref = .error (refMsgData ref)
        ∧ strContains (refMsgData ref) ref = true)
    ∧ (∀ (fp : String) (sdf : List SRow) (t ref : String),
      (∀ r ∈ sdf, r.name = t → normalizeLabel r.series_id ≠ ref) →
        process_structure_csv fp sdf t ref = .error (refMsgFile ref fp)
        ∧ strContains (refMsgFile ref fp) ref = true) := by
  constructor
  · intro df ref habs
    have hfil : List.filter (fun r => decide (r.phase = ref))
        (List.insertionSort lexLe
          (List.filter (fun r => decide (r.axis = "z")) df)) = [] := by
      apply List.filter_eq_nil_iff.mpr
      intro r hr
      have hrz : r ∈ List.filter (fun r => decide (r.axis = "z")) df := by
        simpa using hr
      have hrdf := List.mem_filter.mp hrz
      have haxis : r.axis = "z" := by simpa using hrdf.2
      simpa using habs r hrdf.1 haxis
    refine ⟨?_, strContains_refMsgData ref⟩
    simp only [compute_displacement]
    rw [hfil]
  · intro fp sdf t ref habs
    have hfil : List.filter (fun r => decide (r.series_id = ref))
        (List.insertionSort phaseLe (selectPhases sdf t)) = [] := by
      apply List.filter_eq_nil_iff.mpr
      intro r hr
      have hrs : r ∈ selectPhases sdf t := by simpa using hr
      have hr1 : r ∈ (sdf.filter (fun r => decide (r.name = t))).map
          (fun r => { r with series_id := normalizeLabel r.series_id }) :=
        List.mem_of_mem_filter hrs
      obtain ⟨r0, hr0, rfl⟩ := List.mem_map.1 hr1
      have hr0df := List.mem_filter.mp hr0
      have hname : r0.name = t := by simpa using hr0df.2
      simpa using habs r0 hr0df.1 hname
    refine ⟨?_, strContains_refMsgFile ref fp⟩
    simp only [process_structure_csv]
    rw [hfil]

/-- Witness for C6 amended at concrete one-row tables. -/
theorem C6_ref_error_names_key_witness :
    ((∀ r ∈ [(⟨"25in", "z", 1⟩ : ComRow)], r.axis = "z" → r.phase ≠ "0in")
      ∧ compute_displacement [⟨"25in", "z", 1⟩] "0in"
          = .error (refMsgData "0in")
      ∧ strContains (refMsgData "0in") "0in" = true)
    ∧ ((∀ r ∈ [(⟨"25in", "t1", 1⟩ : SRow)], r.name = "t1" →
          normalizeLabel r.series_id ≠ "0in")
      ∧ process_structure_csv "stats.csv" [⟨"25in", "t1", 1⟩] "t1" "0in"
          = .error (refMsgFile "0in" "stats.csv")
      ∧ strContains (refMsgFile "0in" "stats.csv") "0in" = true) :=
  ⟨⟨by decide, C6_ref_error_names_key.1 [⟨"25in", "z", 1⟩] "0in" (by decide)⟩,
    ⟨by decide, C6_ref_error_names_key.2 "stats.csv" [⟨"25in", "t1", 1⟩]
      "t1" "0in" (by decide)⟩⟩

/-! ## C3: canonical versus lexical ordering of the output -/

/-- **C3 counterexample.** `compute_displacement` sorts phases lexically:
on records labelled `100in` and `25in` the output order is
`[100in, 25in]` although `25in` precedes `100in` in the canonical
sequence. -/
theorem C3_batch_sorts_lexically :
    compute_displacement [⟨"25in", "z", 0⟩, ⟨"100in", "z", 1⟩] "25in"
      = .ok [("100in", (1 : ℚ) - 0), ("25in", (0 : ℚ) - 0)]
    ∧ phaseIdxS "25in" < phaseIdxS "100in" :=
  ⟨rfl, by decide⟩

/-- **C3 amended.** `process_structure_csv` orders its output by canonical
phase position (and on the spec's three-label example, in any input order,
produces `[0in, 25in, 50in]`), while `compute_displacement`
(`batch_displacement_processor.py`) orders its output lexically by the
phase string. -/
theorem C3_phase_vs_lexical_sort :
    (∀ (fp : String) (df : List SRow) (t ref : String)
        (out : List (String × ℚ)),
      process_structure_csv fp df t ref = .ok out →
        List.Sorted (fun p q : String × ℚ => phaseIdxS p.1 ≤ phaseIdxS q.1) out)
    ∧ (∀ (df : List ComRow) (ref : String) (out : List (String × ℚ)),
      compute_displacement df ref = .ok out →
        List.Sorted (fun p q : String × ℚ =>
          charListLe p.1.data q.1.data = true) out)
    ∧ (∀ df : List SRow,
      df ∈ ([[⟨"50in", "t1", 1⟩, ⟨"0in", "t1", 2⟩, ⟨"25in", "t1", 3⟩],
             [⟨"50in", "t1", 1⟩, ⟨"25in", "t1", 3⟩, ⟨"0in", "t1", 2⟩],
             [⟨"0in", "t1", 2⟩, ⟨"50in", "t1", 1⟩, ⟨"25in", "t1", 3⟩],
             [⟨"0in", "t1", 2⟩, ⟨"25in", "t1", 3⟩, ⟨"50in", "t1", 1⟩],
             [⟨"25in", "t1", 3⟩, ⟨"50in", "t1", 1⟩, ⟨"0in", "t1", 2⟩],
             [⟨"25in", "t1", 3⟩, ⟨"0in", "t1", 2⟩, ⟨"50in", "t1", 1⟩]] :
            List (List SRow)) →
      ∃ out, process_structure_csv "f.csv" df "t1" "0in" = .ok out
        ∧ out.map Prod.fst = ["0in", "25in", "50in"]) := by
  refine ⟨?_, ?_, ?_⟩
  · intro fp df t ref out h
    simp only [process_structure_csv] at h
    cases hfil : List.filter (fun r => decide (r.series_id = ref))
        (List.insertionSort phaseLe (selectPhases df t)) with
    | nil => rw [hfil] at h; exact absurd h (by simp)
    | cons r0 rest =>
      rw [hfil] at h
      have hout : out = (List.insertionSort phaseLe (selectPhases df t)).map
          (fun r => (r.series_id, r.z - r0.z)) := by
        cases h; rfl
      have hs : List.Sorted phaseLe
          (List.insertionSort phaseLe (selectPhases df t)) :=
        List.sorted_insertionSort phaseLe _
      rw [hout]
      exact List.pairwise_map.mpr hs
  · intro df ref out h
    simp only [compute_displacement] at h
    cases hfil : List.filter (fun r => decide (r.phase = ref))
        (List.insertionSort lexLe
          (List.filter (fun r => decide (r.axis = "z")) df)) with
    | nil => rw [hfil] at h; exact absurd h (by simp)
    | cons r0 rest =>
      rw [hfil] at h
      have hout : out = (List.insertionSort lexLe
          (List.filter (fun r => decide (r.axis = "z")) df)).map
            (fun r => (r.phase, r.com - r0.com)) := by
        cases h; rfl
      have hs : List.Sorted lexLe (List.insertionSort lexLe
          (List.filter (fun r => decide (r.axis = "z")) df)) :=
        List.sorted_insertionSort lexLe _
      rw [hout]
      exact List.pairwise_map.mpr hs
  · intro df hdf
    simp only [List.mem_cons, List.mem_singleton] at hdf
    rcases hdf with rfl | rfl | rfl | rfl | rfl | rfl | h
    · exact ⟨_, rfl, rfl⟩
    · exact ⟨_, rfl, rfl⟩
    · exact ⟨_, rfl, rfl⟩
    · exact ⟨_, rfl, rfl⟩
    · exact ⟨_, rfl, rfl⟩
    · exact ⟨_, rfl, rfl⟩
    · exact absurd h (by simp)

/-- Witness for C3 amended at a concrete two-row call of the realdata
plotter. -/
theorem C3_phase_vs_lexical_sort_witness :
    process_structure_csv "f.csv" [⟨"50in", "t1", 1⟩, ⟨"0in", "t1", 2⟩]
        "t1" "0in"
      = .ok [("0in", (2 : ℚ) - 2), ("50in", (1 : ℚ) - 2)]
    ∧ List.Sorted (fun p q : String × ℚ => phaseIdxS p.1 ≤ phaseIdxS q.1)
        [("0in", (2 : ℚ) - 2), ("50in", (1 : ℚ) - 2)] :=
  ⟨rfl, C3_phase_vs_lexical_sort.1 "f.csv" [⟨"50in", "t1", 1⟩, ⟨"0in", "t1", 2⟩]
    "t1" "0in" [("0in", (2 : ℚ) - 2), ("50in", (1 : ℚ) - 2)] rfl⟩

/-! ## C5: the ordering branch never propagates a parsing error -/

theorem astypeFloat_ok_of_all (l : List TRow)
    (h : ∀ r ∈ l, is_numeric r.series_id = true) :
    ∃ k, astypeFloat l = .ok k := by
  induction l with
  | nil => exact ⟨[], rfl⟩
  | cons r t ih =>
    have hr : is_numeric r.series_id = true := h r (List.mem_cons_self r t)
    obtain ⟨v, hv⟩ := Option.isSome_iff_exists.mp hr
    obtain ⟨k, hk⟩ := ih (fun s hs => h s (List.mem_cons_of_mem r hs))
    refine ⟨(r, v) :: k, ?_⟩
    simp only [astypeFloat, hv, hk]

theorem astypeFloat_length (l : List TRow) (k : List (TRow × ℚ))
    (h : astypeFloat l = .ok k) : k.length = l.length := by
  induction l generalizing k with
  | nil =>
    simp only [astypeFloat] at h
    cases h
    rfl
  | cons r t ih =>
    simp only [astypeFloat] at h
    cases hv : parseFloatQ r.series_id with
    | none => rw [hv] at h; exact absurd h (by simp)
    | some v =>
      rw [hv] at h
      cases hrec : astypeFloat t with
      | error e => rw [hrec] at h; exact absurd h (by simp)
      | ok k0 =>
        rw [hrec] at h
        cases h
        simp [ih k0 hrec]

/-- **C5 counterexample.** A table holding a non-numeric series key `abc`
next to the numeric key `1.0`: the ordering pipeline of
`tumour_displacement.py` succeeds — it falls back to phase handling instead
of failing with a parsing error, and keeps the bad record. -/
theorem C5_nonnumeric_falls_back :
    tumourPipeline [⟨"abc", "t", 0, 0, 0⟩, ⟨"1.0", "t", 0, 0, 0⟩]
      = .ok [⟨"abc", "t", 0, 0, 0⟩, ⟨"1.0", "t", 0, 0, 0⟩]
    ∧ is_numeric "abc" = false ∧ is_numeric "1.0" = true :=
  ⟨rfl, by decide, by decide⟩

/-- **C5 amended.** The script has no explicit ordering request: the mode is
auto-detected from the data.  Numeric ordering (float coercion) is applied
only when every series key is numeric, in which case the coercion cannot
fail; when any key is non-numeric the call does not fail with a parsing
error but silently falls back to phase-based categorical ordering.  Hence
the ordering pipeline never propagates a parsing error. -/
theorem C5_ordering_never_fails (df : List TRow) :
    ∃ out, tumourPipeline df = .ok out := by
  rw [tumourPipeline]
  by_cases hall : (filterAverage df).all (fun r => is_numeric r.series_id)
  · rw [orderRows, if_neg (not_not_intro hall), if_pos hall]
    obtain ⟨k, hk⟩ := astypeFloat_ok_of_all (filterAverage df)
      (fun r hr => by simpa using List.all_eq_true.mp hall r hr)
    rw [hk]
    exact ⟨_, rfl⟩
  · rw [orderRows, if_pos hall]
    exact ⟨_, rfl⟩

/-! ## C9: normalization and dropping of unrecognized phase labels -/

/-- **C9 counterexample.** With phase-based ordering active in
`tumour_displacement.py`, the label ` 0in ` (whitespace, normalizable to the
canonical `0in`) is not normalized before matching, and the record `xyz`,
whose normalized label is not canonical, is kept in the output instead of
being dropped. -/
theorem C9_tumour_keeps_unrecognized :
    tumourPipeline [⟨" 0in ", "t", 0, 0, 0⟩, ⟨"xyz", "t", 0, 0, 0⟩]
      = .ok [⟨" 0in ", "t", 0, 0, 0⟩, ⟨"xyz", "t", 0, 0, 0⟩]
    ∧ normalizeLabel " 0in " ∈ PHASE_ORDER
    ∧ " 0in " ∉ PHASE_ORDER
    ∧ normalizeLabel "xyz" ∉ PHASE_ORDER :=
  ⟨rfl, by decide, by decide, by decide⟩

/-- **C9 amended.** `process_structure_csv` normalizes labels (strip,
lowercase) before matching and drops every record whose normalized label is
not canonical: every output label is a canonical phase that arises as the
normalization of an input label of the requested tumour.  The
`tumour_displacement.py` ordering, in contrast, drops nothing: its output
always has exactly as many rows as its (average-filtered) input. -/
theorem C9_normalize_and_drop (df : List SRow) (fp t ref : String)
    (out : List (String × ℚ)) (h : process_structure_csv fp df t ref = .ok out) :
    (∀ p ∈ out, p.1 ∈ PHASE_ORDER
      ∧ ∃ r, r ∈ df ∧ r.name = t ∧ normalizeLabel r.series_id = p.1)
    ∧ ∀ (tdf : List TRow) (tout : List TRow), tumourPipeline tdf = .ok tout →
        tout.length = (filterAverage tdf).length := by
  constructor
  · intro p hp
    simp only [process_structure_csv] at h
    cases hfil : List.filter (fun r => decide (r.series_id = ref))
        (List.insertionSort phaseLe (selectPhases df t)) with
    | nil => rw [hfil] at h; exact absurd h (by simp)
    | cons r0 rest =>
      rw [hfil] at h
      have hout : out = (List.insertionSort phaseLe (selectPhases df t)).map
          (fun r => (r.series_id, r.z - r0.z)) := by
        cases h; rfl
      rw [hout] at hp
      obtain ⟨r, hrs, rfl⟩ := List.mem_map.1 hp
      have hrsel : r ∈ selectPhases df t := by simpa using hrs
      have hmem := List.mem_filter.mp hrsel
      have hcanon : r.series_id ∈ PHASE_ORDER := by
        have := hmem.2
        simpa using this
      obtain ⟨r1, hr1, rfl⟩ := List.mem_map.1 hmem.1
      have hr1df := List.mem_filter.mp hr1
      have hname : r1.name = t := by simpa using hr1df.2
      exact ⟨hcanon, r1, hr1df.1, hname, rfl⟩
  · intro tdf tout ht
    rw [tumourPipeline] at ht
    by_cases hall : (filterAverage tdf).all (fun r => is_numeric r.series_id)
    · rw [orderRows, if_neg (not_not_intro hall), if_pos hall] at ht
      cases hk : astypeFloat (filterAverage tdf) with
      | error e => rw [hk] at ht; exact absurd ht (by simp)
      | ok k =>
        rw [hk] at ht
        have : tout = (List.insertionSort tNumLe k).map Prod.fst := by
          cases ht; rfl
        rw [this]
        simp [astypeFloat_length _ _ hk]
    · rw [orderRows, if_pos hall] at ht
      have : tout = List.insertionSort (tCatLe (existingPhases (filterAverage tdf)))
          (filterAverage tdf) := by
        cases ht; rfl
      rw [this]
      simp

/-- Witness for C9 amended at a concrete call. -/
theorem C9_normalize_and_drop_witness :
    process_structure_csv "f.csv" [⟨" 0IN ", "t1", 1⟩, ⟨"weird", "t1", 2⟩]
        "t1" "0in"
      = .ok [("0in", (1 : ℚ) - 1)]
    ∧ ((∀ p ∈ [("0in", (1 : ℚ) - 1)], p.1 ∈ PHASE_ORDER
        ∧ ∃ r, r ∈ [(⟨" 0IN ", "t1", 1⟩ : SRow), ⟨"weird", "t1", 2⟩]
            ∧ r.name = "t1" ∧ normalizeLabel r.series_id = p.1)
      ∧ ∀ (tdf : List TRow) (tout : List TRow), tumourPipeline tdf = .ok tout →
          tout.length = (filterAverage tdf).length) :=
  ⟨rfl, C9_normalize_and_drop [⟨" 0IN ", "t1", 1⟩, ⟨"weird", "t1", 2⟩]
    "f.csv" "t1" "0in" [("0in", (1 : ℚ) - 1)] rfl⟩

/-! ## C8: 3-D displacement is the absolute Euclidean magnitude -/

/-- **C8.** Each value plotted by `tumour_displacement.py` for a record is
`sqrt(x² + y² + z²)` — the Euclidean norm of the record's own position
vector — computed from that record alone, with no reference record's
coordinates subtracted. -/
theorem C8_3d_absolute_magnitude (df : List TRow) (t : String) (q : ℚ)
    (hq : q ∈ tumourDisplacementSq df t) :
    ∃ r, r ∈ df ∧ r.name = t ∧ q = r.x ^ 2 + r.y ^ 2 + r.z ^ 2
      ∧ Real.sqrt (q : ℝ)
        = ‖((WithLp.equiv 2 (Fin 3 → ℝ)).symm
            ![(r.x : ℝ), (r.y : ℝ), (r.z : ℝ)] : EuclideanSpace ℝ (Fin 3))‖ := by
  rw [tumourDisplacementSq] at hq
  obtain ⟨r, hrf, rfl⟩ := List.mem_map.1 hq
  have hrdf := List.mem_filter.mp hrf
  have hname : r.name = t := by simpa using hrdf.2
  refine ⟨r, hrdf.1, hname, rfl, ?_⟩
  rw [EuclideanSpace.norm_eq]
  congr 1
  simp [Fin.sum_univ_three, Real.norm_eq_abs, sq_abs]

/-- Witness for C8 at the record `(x, y, z) = (1, 2, 3)`. -/
theorem C8_3d_absolute_magnitude_witness :
    ((1 : ℚ) ^ 2 + 2 ^ 2 + 3 ^ 2) ∈
        tumourDisplacementSq [⟨"0in", "t", 1, 2, 3⟩] "t"
    ∧ ∃ r, r ∈ [(⟨"0in", "t", 1, 2, 3⟩ : TRow)] ∧ r.name = "t"
        ∧ (1 : ℚ) ^ 2 + 2 ^ 2 + 3 ^ 2 = r.x ^ 2 + r.y ^ 2 + r.z ^ 2
        ∧ Real.sqrt (((1 : ℚ) ^ 2 + 2 ^ 2 + 3 ^ 2 : ℚ) : ℝ)
          = ‖((WithLp.equiv 2 (Fin 3 → ℝ)).symm
              ![(r.x : ℝ), (r.y : ℝ), (r.z : ℝ)] : EuclideanSpace ℝ (Fin 3))‖ := by
  have hmem : ((1 : ℚ) ^ 2 + 2 ^ 2 + 3 ^ 2) ∈
      tumourDisplacementSq [⟨"0in", "t", 1, 2, 3⟩] "t" := by
    simp [tumourDisplacementSq]
  exact ⟨hmem, C8_3d_absolute_magnitude [⟨"0in", "t", 1, 2, 3⟩] "t" _ hmem⟩

end Seg
